import Mathlib

/-
  Verification of the Joggl CLI (src/index.js): a one-shot pipeline that
  fetches a Toggl time report, extracts Jira issue ids from entry
  descriptions, aggregates entries by (project, description), validates the
  ids against a Jira search, and sequentially posts work logs.

  The JavaScript source is shallowly embedded below: JS objects used as
  dictionaries become insertion-ordered association lists, JS numbers holding
  integer milliseconds become Int (exact for the integer inputs at hand),
  the float division in the work-log payload becomes exact division in Rat,
  and the network callbacks become pure functions of the (error, response)
  pair handed to them.
-/

namespace Joggl

/-! ## Identifier extraction (src/index.js lines 20-29)

`findJiraIds` runs the JavaScript regex `/([a-zA-Z][a-zA-Z0-9_]+-[1-9][0-9]*)/g`
over the string and returns the list of matches (or `[]` when `match` gives
null).  The scan below reproduces the JS `String.match` semantics for this
particular pattern: try to match at each position from the left; on a match,
continue after it (non-overlapping); otherwise advance one character.
Because the character after the greedy `[a-zA-Z0-9_]+` can never itself be a
word character, and the match ends after the greedy `[0-9]*`, no backtracking
arises for this pattern and the greedy scan is exact. -/

/-- Character class `[a-zA-Z]`: code points 65-90 (uppercase) and 97-122
(lowercase). -/
def isLetter (c : Char) : Bool :=
  (65 ≤ c.toNat && c.toNat ≤ 90) || (97 ≤ c.toNat && c.toNat ≤ 122)

/-- Character class `[0-9]`: code points 48-57. -/
def isDigitChar (c : Char) : Bool :=
  48 ≤ c.toNat && c.toNat ≤ 57

/-- Character class `[1-9]`: code points 49-57. -/
def isNonzeroDigit (c : Char) : Bool :=
  49 ≤ c.toNat && c.toNat ≤ 57

/-- Character class `[a-zA-Z0-9_]` (code point 95 is the underscore). -/
def isWordChar (c : Char) : Bool :=
  isLetter c || isDigitChar c || c.toNat == 95

/-- Attempt to match `[a-zA-Z][a-zA-Z0-9_]+-[1-9][0-9]*` at the head of the
character list.  Returns the matched characters together with the remainder
of the input after the match. -/
def matchAt : List Char → Option (List Char × List Char)
  | [] => none
  | c :: rest =>
    if isLetter c then
      if (rest.takeWhile isWordChar).length = 0 then none
      else
        match rest.dropWhile isWordChar with
        | x :: d :: r2 =>
          if x == '-' && isNonzeroDigit d then
            some (c :: (rest.takeWhile isWordChar ++ x :: d :: r2.takeWhile isDigitChar),
                  r2.dropWhile isDigitChar)
          else none
        | _ => none
    else none

/-- Left-to-right global scan, as performed by `String.match` with the `g`
flag: at each position try `matchAt`; on success emit the match and resume
after it, otherwise advance one character.  The fuel argument makes the
recursion structural; each step consumes at least one character, so fuel
equal to the input length suffices. -/
def scanAux : Nat → List Char → List (List Char)
  | 0, _ => []
  | _ + 1, [] => []
  | fuel + 1, c :: rest =>
    match matchAt (c :: rest) with
    | some (m, rem) => m :: scanAux fuel rem
    | none => scanAux fuel rest

/-- All regex matches of `[a-zA-Z][a-zA-Z0-9_]+-[1-9][0-9]*` in the list. -/
def findJiraIdsList (cs : List Char) : List (List Char) :=
  scanAux cs.length cs

/-- `findJiraIds` from src/index.js lines 20-29: the list of all matches of
`/([a-zA-Z][a-zA-Z0-9_]+-[1-9][0-9]*)/g`, or `[]` when there are none. -/
def findJiraIds (s : String) : List String :=
  (findJiraIdsList s.data).map fun l => String.mk l

/-- A character list is a full match of the pattern
`[a-zA-Z][a-zA-Z0-9_]+-[1-9][0-9]*`: one letter, then one or more
letters/digits/underscores, then a hyphen, then a digit sequence with a
nonzero leading digit. -/
def JiraPat (m : List Char) : Prop :=
  ∃ c w d ds, m = c :: (w ++ '-' :: d :: ds) ∧
    isLetter c = true ∧ w ≠ [] ∧ (∀ x ∈ w, isWordChar x = true) ∧
    isNonzeroDigit d = true ∧ (∀ x ∈ ds, isDigitChar x = true)

/-! ## Data model

One row of the Toggl detailed report (`res.body.data`): fields `pid`,
`project`, `description` and `dur` (milliseconds).  The report durations are
integer milliseconds, so `dur` is an `Int`. -/

structure RawTimeEntry where
  pid : Nat
  project : String
  description : String
  dur : Int
deriving DecidableEq

/-- The per-description accumulator built in the `res.body.data.forEach`
loop (src/index.js lines 110-126). -/
structure Item where
  description : String
  jiraIds : List String
  duration : Int
  occurrences : Nat
deriving DecidableEq

/-- The per-pid accumulator (src/index.js lines 100-108).  Its `items`
dictionary, a JS object keyed by description, is modelled as an
insertion-ordered association list. -/
structure Project where
  name : String
  id : Nat
  items : List (String × Item)
deriving DecidableEq

/-- One element of `allItems` (src/index.js lines 133-149): an `Item` with
the owning project's name attached. -/
structure FinalItem where
  project : String
  description : String
  jiraIds : List String
  duration : Int
  occurrences : Nat
deriving DecidableEq

/-! ## Aggregation (src/index.js lines 97-149) -/

/-- JS dictionary assignment `obj[key] = val`: replace in place when the key
is present, append otherwise. -/
def setAssoc {α β : Type} [BEq α] : List (α × β) → α → β → List (α × β)
  | [], key, val => [(key, val)]
  | kv :: rest, key, val =>
    if kv.1 == key then (key, val) :: rest else kv :: setAssoc rest key val

/-- One iteration of the `res.body.data.forEach(log => ...)` loop: fetch or
make the project for `log.pid`, fetch or make the item for
`log.description`, add the duration, bump the occurrence count, and store
both back. -/
def step (projects : List (Nat × Project)) (log : RawTimeEntry) : List (Nat × Project) :=
  let project :=
    match projects.lookup log.pid with
    | some p => p
    | none => { name := log.project, id := log.pid, items := [] }
  let item :=
    match project.items.lookup log.description with
    | some it => it
    | none => { description := log.description, jiraIds := findJiraIds log.description,
                duration := 0, occurrences := 0 }
  let item2 := { item with duration := item.duration + log.dur,
                           occurrences := item.occurrences + 1 }
  let project2 := { project with items := setAssoc project.items log.description item2 }
  setAssoc projects log.pid project2

/-- The `projects` dictionary after the whole forEach loop. -/
def buildProjects (logs : List RawTimeEntry) : List (Nat × Project) :=
  logs.foldl step []

/-- The `allItems` array (src/index.js lines 133-149): every item of every
project, with the project name copied onto it. -/
def aggregate (logs : List RawTimeEntry) : List FinalItem :=
  (buildProjects logs).flatMap fun pp =>
    pp.2.items.map fun di =>
      { project := pp.2.name, description := di.2.description, jiraIds := di.2.jiraIds,
        duration := di.2.duration, occurrences := di.2.occurrences }

/-! ## Classification (src/index.js lines 162-196) -/

/-- The three statuses printed in the summary loop. -/
inductive Status where
  | Ready
  | NoId
  | MultipleIds
deriving DecidableEq

/-- Per-item classification from the summary loop: the status printed for
the item, and `item.jiraId = item.jiraIds[0]` (JS `undefined`, i.e. `none`,
when the list is empty). -/
def classifyItem (it : FinalItem) : Status × Option String :=
  let jiraId := it.jiraIds.head?
  if it.jiraIds.length = 1 then (Status.Ready, jiraId)
  else if it.jiraIds.length = 0 then (Status.NoId, jiraId)
  else (Status.MultipleIds, jiraId)

/-- The `issues` counter of the summary loop: incremented for every item
whose `jiraIds` length is 0 (`No Jira Id`) or greater than 1
(`Multiple Jira Ids`). -/
def issuesCount (items : List FinalItem) : Nat :=
  items.countP fun it => !(it.jiraIds.length == 1)

/-- The `uniqueJiraIds` array (src/index.js lines 167-172): first-seen order
of each item's `jiraId` (`jiraIds[0]`), skipping items without one and
duplicates. -/
def uniqueJiraIds (items : List FinalItem) : List String :=
  items.foldl
    (fun acc it =>
      match it.jiraIds.head? with
      | some id => if acc.contains id then acc else acc ++ [id]
      | none => acc)
    []

/-! ## Cross-check against the Jira search result (src/index.js lines 242-269) -/

/-- The `issues` dictionary built from `res.body.issues`: key maps to
`issue.fields.issuetype.subtask`; a later entry with the same key
overwrites an earlier one. -/
def buildIssues (resp : List (String × Bool)) : List (String × Bool) :=
  resp.foldl (fun m kv => setAssoc m kv.1 kv.2) []

/-- The `errors` counter of the verification loop: an id is an error when
it is absent from the dictionary (`Doesn't exist`) or maps to an issue with
`subtask` false (`Not a subtask`). -/
def issueErrors (ids : List String) (dict : List (String × Bool)) : Nat :=
  ids.countP fun key =>
    match dict.lookup key with
    | none => true
    | some sub => !sub

/-! ## Submission (src/index.js lines 283-339) -/

/-- `item.jiraId`, the id the work log is posted to. -/
def itemJiraId (it : FinalItem) : Option String :=
  it.jiraIds.head?

/-- The work-log POST body (src/index.js lines 294-312).  `timeSpentSeconds`
is `item.duration / 1000.0`; for the report's integer millisecond durations
this JS float division is exact, so it is modelled as exact division in
`Rat`. -/
structure WorkLogBody where
  comment : String
  timeSpentSeconds : Rat
  started : String
deriving DecidableEq

/-- Build the POST body for one item: the description plus an import note,
the duration divided by 1000, and the target date at midnight UTC. -/
def mkWorkLogBody (item : FinalItem) (date : String) : WorkLogBody :=
  { comment := item.description ++ " \n\n(Imported via Joggl)",
    timeSpentSeconds := (item.duration : Rat) / 1000,
    started := date ++ "T00:00:00.000+0000" }

/-- The recursive `createNextWorkLog` loop: shift the next item off the
front, POST its work log, and on a 201 response recurse; on any other
response exit with status 1.  An empty queue exits with status 0.
`resp i` tells whether the i-th POST came back with status 201.  The result
is the process exit code together with the ids POSTed, in order. -/
def submitLoop : List FinalItem → (Nat → Bool) → Nat → Nat × List (Option String)
  | [], _, _ => (0, [])
  | it :: rest, resp, i =>
    if resp i then
      let r := submitLoop rest resp (i + 1)
      (r.1, itemJiraId it :: r.2)
    else (1, [itemJiraId it])

/-! ## The pipeline after a successful report fetch (src/index.js lines 152-343)

Pure model of the control flow once the report response has been mapped to
`allItems`: the empty-report early exit, the local-classification gate, the
cross-check gate against the Jira search response, the confirmation prompt,
and the submission loop.  The result is the process exit code together with
the ids POSTed, in order; a run that never reaches the submitter performs
zero POSTs. -/

def pipeline (items : List FinalItem) (resp : List (String × Bool))
    (confirmAns : Bool) (postOk : Nat → Bool) : Nat × List (Option String) :=
  if items.length = 0 then (0, [])
  else if 0 < issuesCount items then (1, [])
  else if 0 < issueErrors (uniqueJiraIds items) (buildIssues resp) then (1, [])
  else if confirmAns then submitLoop items postOk 0
  else (0, [])

/-! ## Response handlers for the three network calls -/

/-- What a superagent `.end` callback does, abstracted: exit the process,
crash on an uncaught exception, or proceed with the rest of the pipeline. -/
inductive HandlerOutcome where
  | exit (code : Nat)
  | crash
  | proceed
deriving DecidableEq

/-- Outcome of processing the Toggl report response (src/index.js lines
79-149): a transport error is printed and the process exits with 1; a
report whose `total_count` exceeds `per_page` is rejected with the
"too many entries" error; otherwise the data is aggregated. -/
inductive ReportResult where
  | transportExit
  | tooManyExit
  | mapped (items : List FinalItem)
deriving DecidableEq

def processReport (err : Option String) (totalCount perPage : Int)
    (data : List RawTimeEntry) : ReportResult :=
  match err with
  | some _ => ReportResult.transportExit
  | none =>
    if perPage < totalCount then ReportResult.tooManyExit
    else ReportResult.mapped (aggregate data)

/-- The process exit code produced by a `ReportResult`, where `none` means
the pipeline continues. -/
def reportExitCode : ReportResult → Option Nat
  | ReportResult.transportExit => some 1
  | ReportResult.tooManyExit => some 1
  | ReportResult.mapped _ => none

/-- The error branch of the Jira search `.end` callback (src/index.js lines
236-240): any error is printed and the process exits with 1. -/
def searchGetOutcome (err : Option String) : HandlerOutcome :=
  match err with
  | some _ => HandlerOutcome.exit 1
  | none => HandlerOutcome.proceed

/-- The work-log POST `.end` callback (src/index.js lines 323-335).  It
reads `res.statusCode` with no guard: when the request failed at the
transport level superagent passes no response object (`res` is undefined),
so the property read throws an uncaught TypeError — modelled as `crash`.
With a response present, 201 proceeds to the next item and anything else
prints the error and exits with 1. -/
def postOutcome (_err : Option String) (res : Option Nat) : HandlerOutcome :=
  match res with
  | none => HandlerOutcome.crash
  | some code => if code = 201 then HandlerOutcome.proceed else HandlerOutcome.exit 1

/-! ## Credential resolution (src/index.js lines 35-48) -/

/-- The `apiToken` and `workspace` variables after the two prompt blocks.
`flagApiToken` and `flagWorkspace` are the command-line flags (`none` when
omitted or empty, i.e. falsy); `promptApiToken` and `promptWorkspace` are
what the two interactive prompts would return.  Line 46 of the source
assigns the workspace prompt's answer to `apiToken`, not to `workspace`. -/
def resolveCreds (flagApiToken flagWorkspace : Option String)
    (promptApiToken promptWorkspace : String) : String × Option String :=
  let apiToken :=
    match flagApiToken with
    | some t => t
    | none => promptApiToken
  let workspace := flagWorkspace
  match workspace with
  | some _ => (apiToken, workspace)
  | none => (promptWorkspace, workspace)

/-! ## Concrete inputs used by witnesses and counterexamples -/

/-- The spec's aggregation scenario: two identical entries for `ABC-12`. -/
def demoLogs : List RawTimeEntry :=
  [ { pid := 1, project := "X", description := "Fix ABC-12 bug", dur := 60000 },
    { pid := 1, project := "X", description := "Fix ABC-12 bug", dur := 30000 } ]

/-- An item whose description carries two Jira ids. -/
def twoIdItem : FinalItem :=
  { project := "X", description := "Spans AB-1 and CD-2",
    jiraIds := ["AB-1", "CD-2"], duration := 3600000, occurrences := 1 }

/-- A ready item with a single Jira id. -/
def readyItem : FinalItem :=
  { project := "X", description := "Fix AB-1", jiraIds := ["AB-1"],
    duration := 60000, occurrences := 1 }

/-- A second ready item, used by the submitter witnesses. -/
def readyItem2 : FinalItem :=
  { project := "X", description := "Fix CD-2", jiraIds := ["CD-2"],
    duration := 30000, occurrences := 2 }

/-- A third ready item, used by the submitter witnesses. -/
def readyItem3 : FinalItem :=
  { project := "X", description := "Fix EF-3", jiraIds := ["EF-3"],
    duration := 15000, occurrences := 1 }

/-- An item whose total duration is not a whole number of seconds. -/
def fracItem : FinalItem :=
  { project := "X", description := "AB-1 quick fix", jiraIds := ["AB-1"],
    duration := 1500, occurrences := 1 }

end Joggl

namespace Joggl

/-! ## Helper lemmas about the extractor -/

theorem letter_not_digit {c : Char} (h : isLetter c = true) : isDigitChar c = false := by
  rw [Bool.eq_false_iff]
  intro hd
  simp only [isLetter, Bool.or_eq_true, Bool.and_eq_true, decide_eq_true_eq] at h
  simp only [isDigitChar, Bool.and_eq_true, decide_eq_true_eq] at hd
  omega

theorem hyphen_not_word : isWordChar '-' = false := by decide

theorem mem_takeWhile_sat {α : Type} (p : α → Bool) :
    ∀ (l : List α) (x : α), x ∈ l.takeWhile p → p x = true := by
  intro l
  induction l with
  | nil => intro x hx; simp [List.takeWhile] at hx
  | cons a t ih =>
    intro x hx
    by_cases hp : p a = true
    · rw [List.takeWhile_cons, if_pos hp] at hx
      rcases List.mem_cons.1 hx with hx | hx
      · subst hx; exact hp
      · exact ih x hx
    · rw [List.takeWhile_cons, if_neg hp] at hx
      simp at hx

theorem takeWhile_append_of {α : Type} (p : α → Bool) (w r : List α)
    (hw : ∀ x ∈ w, p x = true)
    (hr : ∀ y, r.head? = some y → p y = false) :
    (w ++ r).takeWhile p = w ∧ (w ++ r).dropWhile p = r := by
  induction w with
  | nil =>
    simp only [List.nil_append]
    cases r with
    | nil => simp
    | cons y t =>
      have hy : p y = false := hr y rfl
      constructor
      · rw [List.takeWhile_cons, if_neg (by simp [hy])]
      · rw [List.dropWhile_cons, if_neg (by simp [hy])]
  | cons a w ih =>
    have ha : p a = true := hw a (by simp)
    have ih2 := ih fun x hx => hw x (by simp [hx])
    constructor
    · rw [List.cons_append, List.takeWhile_cons, if_pos ha, ih2.1]
    · rw [List.cons_append, List.dropWhile_cons, if_pos ha, ih2.2]

theorem matchAt_pat {cs m rem : List Char} (h : matchAt cs = some (m, rem)) :
    JiraPat m := by
  cases cs with
  | nil => simp [matchAt] at h
  | cons c rest =>
    simp only [matchAt] at h
    split at h
    case isFalse => simp at h
    case isTrue hl =>
      split at h
      case isTrue => simp at h
      case isFalse hw0 =>
        split at h
        case h_2 => simp at h
        case h_1 x d r2 hdw =>
          split at h
          case isFalse => simp at h
          case isTrue hc =>
            simp only [Option.some.injEq, Prod.mk.injEq] at h
            obtain ⟨hm, hrem⟩ := h
            rw [Bool.and_eq_true] at hc
            have hx : x = '-' := eq_of_beq hc.1
            have hd : isNonzeroDigit d = true := hc.2
            refine ⟨c, rest.takeWhile isWordChar, d, r2.takeWhile isDigitChar,
              ?_, hl, ?_, ?_, hd, ?_⟩
            · rw [← hm, hx]
            · intro hnil; rw [hnil] at hw0; simp at hw0
            · intro y hy; exact mem_takeWhile_sat _ _ y hy
            · intro y hy; exact mem_takeWhile_sat _ _ y hy

theorem matchAt_append {cs m rem : List Char} (h : matchAt cs = some (m, rem)) :
    cs = m ++ rem := by
  cases cs with
  | nil => simp [matchAt] at h
  | cons c rest =>
    simp only [matchAt] at h
    split at h
    case isFalse => simp at h
    case isTrue hl =>
      split at h
      case isTrue => simp at h
      case isFalse hw0 =>
        split at h
        case h_2 => simp at h
        case h_1 x d r2 hdw =>
          split at h
          case isFalse => simp at h
          case isTrue hc =>
            simp only [Option.some.injEq, Prod.mk.injEq] at h
            obtain ⟨hm, hrem⟩ := h
            rw [← hm, ← hrem]
            have h1 : rest.takeWhile isWordChar ++ rest.dropWhile isWordChar = rest :=
              List.takeWhile_append_dropWhile isWordChar rest
            have h2 : r2.takeWhile isDigitChar ++ r2.dropWhile isDigitChar = r2 :=
              List.takeWhile_append_dropWhile isDigitChar r2
            simp only [List.cons_append, List.append_assoc, List.cons.injEq, true_and]
            rw [h2, ← hdw, h1]

theorem scanAux_pat :
    ∀ (fuel : Nat) (cs : List Char), ∀ m ∈ scanAux fuel cs, JiraPat m := by
  intro fuel
  induction fuel with
  | zero => intro cs m hm; simp [scanAux] at hm
  | succ fuel ih =>
    intro cs m hm
    cases cs with
    | nil => simp [scanAux] at hm
    | cons c rest =>
      rw [scanAux] at hm
      cases hma : matchAt (c :: rest) with
      | some pr =>
        rw [hma] at hm
        rcases List.mem_cons.1 hm with hm | hm
        · have hpr : matchAt (c :: rest) = some (pr.1, pr.2) := by rw [hma]
          subst hm; exact matchAt_pat hpr
        · exact ih pr.2 m hm
      | none =>
        rw [hma] at hm
        exact ih rest m hm

theorem scanAux_decomp :
    ∀ (fuel : Nat) (cs : List Char),
      ∃ (parts : List (List Char × List Char)) (last : List Char),
        cs = (parts.map fun p => p.1 ++ p.2).flatten ++ last ∧
        scanAux fuel cs = parts.map Prod.snd := by
  intro fuel
  induction fuel with
  | zero => intro cs; exact ⟨[], cs, by simp, by simp [scanAux]⟩
  | succ fuel ih =>
    intro cs
    cases cs with
    | nil => exact ⟨[], [], by simp, by simp [scanAux]⟩
    | cons c rest =>
      rw [scanAux]
      cases hma : matchAt (c :: rest) with
      | some pr =>
        obtain ⟨parts, last, h1, h2⟩ := ih pr.2
        refine ⟨([], pr.1) :: parts, last, ?_, ?_⟩
        · have hpr : matchAt (c :: rest) = some (pr.1, pr.2) := by rw [hma]
          have := matchAt_append hpr
          simp only [List.map_cons, List.flatten_cons, List.nil_append, List.append_assoc]
          rw [← h1, ← this]
        · simp [h2]
      | none =>
        obtain ⟨parts, last, h1, h2⟩ := ih rest
        cases parts with
        | nil =>
          refine ⟨[], c :: last, ?_, ?_⟩
          · simp only [List.map_nil, List.flatten_nil, List.nil_append] at h1 ⊢
            rw [h1]
          · simpa using h2
        | cons gm ps =>
          refine ⟨(c :: gm.1, gm.2) :: ps, last, ?_, ?_⟩
          · simp only [List.map_cons, List.flatten_cons, List.cons_append,
              List.append_assoc] at h1 ⊢
            rw [h1]
          · simpa using h2

theorem scanAux_nil_matchAt :
    ∀ (fuel : Nat) (cs : List Char), cs.length ≤ fuel → scanAux fuel cs = [] →
      ∀ p, matchAt (cs.drop p) = none := by
  intro fuel
  induction fuel with
  | zero =>
    intro cs hf _ p
    have : cs = [] := List.length_eq_zero.1 (Nat.le_zero.1 hf)
    subst this
    simp [matchAt]
  | succ fuel ih =>
    intro cs hf h p
    cases cs with
    | nil => simp [matchAt]
    | cons c rest =>
      rw [scanAux] at h
      cases hma : matchAt (c :: rest) with
      | some pr => rw [hma] at h; simp at h
      | none =>
        rw [hma] at h
        cases p with
        | zero => simpa using hma
        | succ q =>
          have hf2 : rest.length ≤ fuel := by
            simp only [List.length_cons] at hf; omega
          have := ih rest hf2 h q
          simpa using this

theorem matchAt_none_scanAux :
    ∀ (fuel : Nat) (cs : List Char), (∀ p, matchAt (cs.drop p) = none) →
      scanAux fuel cs = [] := by
  intro fuel
  induction fuel with
  | zero => intro cs _; rfl
  | succ fuel ih =>
    intro cs h
    cases cs with
    | nil => rfl
    | cons c rest =>
      rw [scanAux]
      have h0 := h 0
      simp only [List.drop_zero] at h0
      rw [h0]
      exact ih rest fun p => by simpa using h (p + 1)

theorem pat_matchAt {m : List Char} (hp : JiraPat m) (t : List Char) :
    (matchAt (m ++ t)).isSome = true := by
  obtain ⟨c, w, d, ds, hm, hl, hwne, hw, hd, hds⟩ := hp
  subst hm
  have hsplit := takeWhile_append_of isWordChar w ('-' :: d :: (ds ++ t)) hw
    (by intro y hy; simp only [List.head?] at hy; cases hy; exact hyphen_not_word)
  simp only [matchAt, List.cons_append, List.append_assoc, List.cons_append]
  rw [if_pos hl]
  rw [hsplit.1, hsplit.2]
  rw [if_neg (by simpa using hwne)]
  simp [hd]

/-! ## Helper lemmas about aggregation -/

/-- The singleton `Item` produced for the first entry of a group. -/
def firstItem (e : RawTimeEntry) : Item :=
  { description := e.description, jiraIds := findJiraIds e.description,
    duration := 0 + e.dur, occurrences := 0 + 1 }

/-- The dictionary state holding a single project with a single item. -/
def singleState (P : Nat) (N D : String) (it : Item) : List (Nat × Project) :=
  [(P, { name := N, id := P, items := [(D, it)] })]

/-- The item after folding a further batch into it. -/
def bumpItem (it : Item) (ds : Int) (k : Nat) : Item :=
  { it with duration := it.duration + ds, occurrences := it.occurrences + k }

theorem step_nil (e : RawTimeEntry) :
    step [] e = singleState e.pid e.project e.description (firstItem e) := rfl

theorem step_single (P : Nat) (D N : String) (it : Item) (e : RawTimeEntry)
    (heP : e.pid = P) (heD : e.description = D) :
    step (singleState P N D it) e = singleState P N D (bumpItem it e.dur 1) := by
  subst heP heD
  simp [step, singleState, bumpItem, setAssoc, List.lookup]

theorem foldl_step_single (P : Nat) (D N : String) :
    ∀ (logs : List RawTimeEntry), (∀ e ∈ logs, e.pid = P ∧ e.description = D) →
    ∀ (it : Item),
      List.foldl step (singleState P N D it) logs =
        singleState P N D (bumpItem it (logs.map RawTimeEntry.dur).sum logs.length) := by
  intro logs
  induction logs with
  | nil => intro _ it; simp [bumpItem]
  | cons e rest ih =>
    intro h it
    have he := h e (by simp)
    rw [List.foldl_cons, step_single P D N it e he.1 he.2,
      ih (fun x hx => h x (by simp [hx]))]
    simp only [singleState, bumpItem, List.map_cons, List.sum_cons, List.length_cons,
      List.cons.injEq, Prod.mk.injEq, Project.mk.injEq, Item.mk.injEq, true_and, and_true]
    constructor
    · omega
    · omega

/-! ## Helper lemmas about classification -/

theorem classify_fst (it : FinalItem) :
    (classifyItem it).1 =
      if it.jiraIds.length = 1 then Status.Ready
      else if it.jiraIds.length = 0 then Status.NoId
      else Status.MultipleIds := by
  simp only [classifyItem]
  split_ifs <;> rfl

theorem length_ne_one_of_status {it : FinalItem}
    (h : (classifyItem it).1 = Status.NoId ∨ (classifyItem it).1 = Status.MultipleIds) :
    it.jiraIds.length ≠ 1 := by
  intro hl
  rw [classify_fst, if_pos hl] at h
  rcases h with h | h <;> simp at h

end Joggl

namespace Joggl

/-! ## The claims -/

/-- C1: for every input string, `findJiraIds` returns only substrings fully
matching `[a-zA-Z][a-zA-Z0-9_]+-[1-9][0-9]*` (so no match begins with a
digit, and the numeric suffix after the hyphen has a nonzero leading digit);
the result is empty exactly when no substring of the input matches the
pattern; and the matches occur in the input, non-overlapping and in
left-to-right order (the input decomposes into gap/match pairs followed by a
final gap). -/
theorem findJiraIds_correct (s : String) :
    (∀ m ∈ findJiraIds s, JiraPat m.data) ∧
    (∀ m ∈ findJiraIds s, ∀ c, m.data.head? = some c →
      isLetter c = true ∧ isDigitChar c = false) ∧
    (findJiraIds s = [] ↔ ∀ m : List Char, JiraPat m → ¬ m <:+: s.data) ∧
    (∃ (parts : List (List Char × List Char)) (gap : List Char),
      s.data = (parts.map fun p => p.1 ++ p.2).flatten ++ gap ∧
      findJiraIds s = parts.map fun p => String.mk p.2) := by
  have hpat : ∀ m ∈ findJiraIds s, JiraPat m.data := by
    intro m hm
    rcases List.mem_map.1 hm with ⟨l, hl, rfl⟩
    exact scanAux_pat _ _ l hl
  refine ⟨hpat, ?_, ⟨?_, ?_⟩, ?_⟩
  · intro m hm c hc
    obtain ⟨c2, w, d, ds, hm2, hl2, _, _, _, _⟩ := hpat m hm
    rw [hm2] at hc
    simp only [List.head?_cons, Option.some.injEq] at hc
    subst hc
    exact ⟨hl2, letter_not_digit hl2⟩
  · intro h m hpm hinf
    have hnil : findJiraIdsList s.data = [] := by
      rw [findJiraIds] at h
      exact List.map_eq_nil_iff.1 h
    have hnone := scanAux_nil_matchAt s.data.length s.data (Nat.le_refl _) hnil
    obtain ⟨u, v, huv⟩ := hinf
    have hd : s.data.drop u.length = m ++ v := by
      rw [← huv, List.append_assoc]
      exact List.drop_left u (m ++ v)
    have h1 := hnone u.length
    rw [hd] at h1
    have h2 := pat_matchAt hpm v
    rw [h1] at h2
    simp at h2
  · intro h
    have : findJiraIdsList s.data = [] := by
      apply matchAt_none_scanAux
      intro p
      cases hma : matchAt (s.data.drop p) with
      | none => rfl
      | some pr =>
        have hpr : matchAt (s.data.drop p) = some (pr.1, pr.2) := by rw [hma]
        have happ := matchAt_append hpr
        have hpm := matchAt_pat hpr
        exact absurd ⟨s.data.take p, pr.2, by
            rw [List.append_assoc, ← happ, List.take_append_drop]⟩ (h pr.1 hpm)
    rw [findJiraIds, this]
    rfl
  · obtain ⟨parts, gap, h1, h2⟩ := scanAux_decomp s.data.length s.data
    refine ⟨parts, gap, h1, ?_⟩
    rw [findJiraIds, findJiraIdsList, h2, List.map_map]
    rfl

/-- Witness for C1: the match returned on the spec's example input satisfies
the pattern predicate. -/
theorem findJiraIds_correct_witness : JiraPat ("ABC-12" : String).data :=
  (findJiraIds_correct "Fix ABC-12 bug").1 "ABC-12" (by decide)

/-- C2: a non-empty batch of raw entries sharing one (pid, description) key
aggregates to exactly one item whose occurrence count is the batch size,
whose duration is the exact integer sum of the batch durations, and whose
candidate ids are `findJiraIds` of the description. -/
theorem aggregate_single_group (logs : List RawTimeEntry) (P : Nat) (D : String)
    (hne : logs ≠ []) (hkey : ∀ e ∈ logs, e.pid = P ∧ e.description = D) :
    ∃ w : FinalItem, aggregate logs = [w] ∧
      w.occurrences = logs.length ∧
      w.duration = (logs.map RawTimeEntry.dur).sum ∧
      w.jiraIds = findJiraIds D ∧ w.description = D := by
  cases logs with
  | nil => exact absurd rfl hne
  | cons e rest =>
    have he := hkey e (by simp)
    rw [aggregate, buildProjects, List.foldl_cons, step_nil, he.1, he.2,
      foldl_step_single P D e.project rest (fun x hx => hkey x (by simp [hx]))]
    refine ⟨{ project := e.project, description := D, jiraIds := findJiraIds D,
              duration := 0 + e.dur + (rest.map RawTimeEntry.dur).sum,
              occurrences := 0 + 1 + rest.length }, ?_, ?_, ?_, rfl, rfl⟩
    · simp [singleState, bumpItem, firstItem, he.2]
    · show 0 + 1 + rest.length = (e :: rest).length
      simp only [List.length_cons]
      omega
    · show 0 + e.dur + (rest.map RawTimeEntry.dur).sum =
        ((e :: rest).map RawTimeEntry.dur).sum
      simp only [List.map_cons, List.sum_cons]
      omega

/-- Witness for C2: the spec's scenario, two entries of 60000 and 30000
milliseconds for `Fix ABC-12 bug`. -/
theorem aggregate_single_group_witness :
    ∃ w : FinalItem, aggregate demoLogs = [w] ∧
      w.occurrences = demoLogs.length ∧
      w.duration = (demoLogs.map RawTimeEntry.dur).sum ∧
      w.jiraIds = findJiraIds "Fix ABC-12 bug" ∧ w.description = "Fix ABC-12 bug" :=
  aggregate_single_group demoLogs 1 "Fix ABC-12 bug" (by decide) (by decide)

/-- C3 counterexample: on an item with two candidate ids the source still
sets `item.jiraId = item.jiraIds[0]`, so the resolved id is set although
there is not exactly one candidate — the claim's "if and only if" fails. -/
theorem classify_resolvedId_ce :
    (classifyItem twoIdItem).1 = Status.MultipleIds ∧
    (classifyItem twoIdItem).2 = some "AB-1" :=
  ⟨rfl, rfl⟩

/-- C3 (amended): classification is total and deterministic, the status is
determined solely by the number of candidate ids (0 is NoId, 1 is Ready with
the resolved id equal to the single candidate, more than 1 is MultipleIds),
and the resolved id (`item.jiraId`) is always `jiraIds[0]` — set whenever at
least one candidate exists, not only when exactly one does. -/
theorem classify_spec (it : FinalItem) :
    (it.jiraIds.length = 0 → classifyItem it = (Status.NoId, none)) ∧
    (∀ x, it.jiraIds = [x] → classifyItem it = (Status.Ready, some x)) ∧
    (1 < it.jiraIds.length → (classifyItem it).1 = Status.MultipleIds) ∧
    (classifyItem it).2 = it.jiraIds.head? ∧
    (∀ it2 : FinalItem, it.jiraIds.length = it2.jiraIds.length →
      (classifyItem it).1 = (classifyItem it2).1) := by
  refine ⟨?_, ?_, ?_, ?_, ?_⟩
  · intro h
    have : it.jiraIds = [] := List.length_eq_zero.1 h
    simp [classifyItem, this]
  · intro x hx
    simp [classifyItem, hx]
  · intro h
    rw [classify_fst, if_neg (by omega), if_neg (by omega)]
  · simp only [classifyItem]
    split_ifs <;> rfl
  · intro it2 h
    rw [classify_fst, classify_fst, h]

/-- Witness for C3: a single-candidate item classifies as Ready with its
candidate as the resolved id. -/
theorem classify_spec_witness :
    classifyItem readyItem = (Status.Ready, some "AB-1") :=
  (classify_spec readyItem).2.1 "AB-1" rfl

/-- C4: if any item classifies as NoId or MultipleIds, or any collected id
is absent from the Jira search result or maps to a non-subtask issue, the
run exits with code 1 and performs zero work-log POSTs. -/
theorem validation_gate (items : List FinalItem) (resp : List (String × Bool))
    (confirmAns : Bool) (postOk : Nat → Bool)
    (h : (∃ it ∈ items, (classifyItem it).1 = Status.NoId ∨
            (classifyItem it).1 = Status.MultipleIds) ∨
         (∃ id ∈ uniqueJiraIds items,
            (buildIssues resp).lookup id = none ∨
            (buildIssues resp).lookup id = some false)) :
    pipeline items resp confirmAns postOk = (1, []) := by
  have hne : items ≠ [] := by
    rcases h with ⟨it, hit, _⟩ | ⟨id, hid, _⟩
    · intro he; rw [he] at hit; simp at hit
    · intro he; rw [he] at hid; simp [uniqueJiraIds] at hid
  rw [pipeline, if_neg (fun hl => hne (List.length_eq_zero.1 hl))]
  rcases h with ⟨it, hit, hst⟩ | ⟨id, hid, hlk⟩
  · have hpos : 0 < issuesCount items := by
      rw [issuesCount, List.countP_pos_iff]
      refine ⟨it, hit, ?_⟩
      have := length_ne_one_of_status hst
      simpa using this
    rw [if_pos hpos]
  · by_cases hic : 0 < issuesCount items
    · rw [if_pos hic]
    · rw [if_neg hic]
      have hpos : 0 < issueErrors (uniqueJiraIds items) (buildIssues resp) := by
        rw [issueErrors, List.countP_pos_iff]
        refine ⟨id, hid, ?_⟩
        rcases hlk with hlk | hlk
        · rw [hlk]
        · rw [hlk]; rfl
      rw [if_pos hpos]

/-- Witness for C4: one item with two candidate ids, an empty search result,
a confirming user — the pipeline still exits 1 with zero POSTs. -/
theorem validation_gate_witness :
    pipeline [twoIdItem] [] true (fun _ => true) = (1, []) :=
  validation_gate [twoIdItem] [] true (fun _ => true)
    (Or.inl ⟨twoIdItem, by simp, Or.inr (by decide)⟩)

/-- C5: the submitter works strictly front-to-back: if every response up to
the end of the queue is a 201 it posts every item exactly once, in order,
and exits 0; if the first failing response is at index f it posts exactly
the first f+1 items (the failing one last) and exits 1, never touching the
items after the failure. -/
theorem submitLoop_spec (items : List FinalItem) (resp : Nat → Bool) (i : Nat) :
    ((∀ k, k < items.length → resp (i + k) = true) →
      submitLoop items resp i = (0, items.map itemJiraId)) ∧
    (∀ f, f < items.length → resp (i + f) = false →
      (∀ k, k < f → resp (i + k) = true) →
      submitLoop items resp i = (1, (items.take (f + 1)).map itemJiraId)) := by
  induction items generalizing i with
  | nil =>
    refine ⟨fun _ => rfl, ?_⟩
    intro f hf
    simp at hf
  | cons it rest ih =>
    constructor
    · intro h
      have h0 : resp i = true := by simpa using h 0 (by simp)
      simp only [submitLoop, h0, if_true]
      have hrec := (ih (i + 1)).1 fun k hk => by
        have := h (k + 1) (by simp only [List.length_cons]; omega)
        rwa [show i + (k + 1) = i + 1 + k by omega] at this
      rw [hrec]
      rfl
    · intro f hf hr hk
      cases f with
      | zero =>
        have h0 : resp i = false := by simpa using hr
        simp [submitLoop, h0]
      | succ g =>
        have h0 : resp i = true := by
          have := hk 0 (by omega)
          simpa using this
        simp only [submitLoop, h0, if_true]
        have hrec := (ih (i + 1)).2 g
          (by simp only [List.length_cons] at hf; omega)
          (by rwa [show i + 1 + g = i + (g + 1) by omega])
          (fun k hk2 => by
            have := hk (k + 1) (by omega)
            rwa [show i + (k + 1) = i + 1 + k by omega] at this)
        rw [hrec]
        simp [List.take_succ_cons]

/-- Witness for C5: three ready items with the second POST failing — the
first two are posted, the third is never attempted, exit code 1. -/
theorem submitLoop_spec_witness :
    submitLoop [readyItem, readyItem2, readyItem3] (fun k => !(k == 1)) 0 =
      (1, ([readyItem, readyItem2, readyItem3].take 2).map itemJiraId) :=
  (submitLoop_spec [readyItem, readyItem2, readyItem3] (fun k => !(k == 1)) 0).2 1
    (by decide) (by decide) (by decide)

/-- C6 counterexample: for a 1500-millisecond item the payload's
`timeSpentSeconds` is 3/2 — its reduced denominator is 2, so the value sent
is not a whole number of seconds. -/
theorem worklog_not_whole_ce :
    (mkWorkLogBody fracItem "2018-01-01").timeSpentSeconds = 3 / 2 ∧
    (mkWorkLogBody fracItem "2018-01-01").timeSpentSeconds.den = 2 := by
  constructor
  · norm_num [mkWorkLogBody, fracItem]
  · norm_num [mkWorkLogBody, fracItem]

/-- C6 (amended): the payload's `timeSpentSeconds` is exactly
`totalDurationMillis / 1000` as a rational — a whole number of seconds
precisely when the duration is a multiple of 1000 — and `started` is the
target date at midnight UTC in the form `<date>T00:00:00.000+0000`. -/
theorem worklog_payload_spec (item : FinalItem) (date : String) :
    (mkWorkLogBody item date).timeSpentSeconds * 1000 = (item.duration : Rat) ∧
    ((∃ n : ℤ, (mkWorkLogBody item date).timeSpentSeconds = (n : Rat)) ↔
      (1000 : ℤ) ∣ item.duration) ∧
    (mkWorkLogBody item date).started = date ++ "T00:00:00.000+0000" ∧
    (mkWorkLogBody item date).comment = item.description ++ " \n\n(Imported via Joggl)" := by
  refine ⟨?_, ⟨?_, ?_⟩, rfl, rfl⟩
  · exact div_mul_cancel₀ _ (by norm_num)
  · rintro ⟨n, hn⟩
    simp only [mkWorkLogBody] at hn
    have h1 : (item.duration : Rat) = (n : Rat) * 1000 := by
      field_simp at hn
      linarith
    have h2 : item.duration = n * 1000 := by exact_mod_cast h1
    exact ⟨n, by omega⟩
  · rintro ⟨k, hk⟩
    refine ⟨k, ?_⟩
    simp only [mkWorkLogBody, hk]
    push_cast
    field_simp

/-- C7: a transport error on the report GET or the issue-search GET is
reported and exits the process with status 1; a transport error on the
work-log POST, however, reaches the unguarded `res.statusCode` read and
crashes with an uncaught TypeError instead of taking the error branch. -/
theorem transport_error_handling :
    (∀ (e : String) (tc pp : Int) (data : List RawTimeEntry),
      processReport (some e) tc pp data = ReportResult.transportExit ∧
      reportExitCode (processReport (some e) tc pp data) = some 1) ∧
    (∀ e : String, searchGetOutcome (some e) = HandlerOutcome.exit 1) ∧
    postOutcome (some "ECONNREFUSED") none = HandlerOutcome.crash :=
  ⟨fun _ _ _ _ => ⟨rfl, rfl⟩, fun _ => rfl, rfl⟩

/-- C8: a report whose `total_count` exceeds `per_page` is rejected with the
"too many entries" error, exit code 1, without the data ever being
aggregated. -/
theorem page_limit_gate (tc pp : Int) (data : List RawTimeEntry) (h : pp < tc) :
    processReport none tc pp data = ReportResult.tooManyExit ∧
    reportExitCode (processReport none tc pp data) = some 1 ∧
    ∀ items, processReport none tc pp data ≠ ReportResult.mapped items := by
  have h1 : processReport none tc pp data = ReportResult.tooManyExit := by
    simp [processReport, h]
  refine ⟨h1, by rw [h1]; rfl, ?_⟩
  intro items
  rw [h1]
  simp

/-- Witness for C8: the spec's scenario of total_count 500 against per_page
200. -/
theorem page_limit_gate_witness :
    processReport none 500 200 [] = ReportResult.tooManyExit ∧
    processReport none 500 200 [] ≠ ReportResult.mapped (aggregate []) :=
  ⟨(page_limit_gate 500 200 [] (by norm_num)).1,
   (page_limit_gate 500 200 [] (by norm_num)).2.2 (aggregate [])⟩

/-- C9: when the workspace flag is omitted, the answer to the workspace-id
prompt is assigned to the `apiToken` variable (overwriting it) and the
`workspace` variable stays unset. -/
theorem workspace_prompt_aliasing (flagApiToken : Option String) (pa pw : String) :
    (resolveCreds flagApiToken none pa pw).1 = pw ∧
    (resolveCreds flagApiToken none pa pw).2 = none :=
  ⟨rfl, rfl⟩

/-- C10: declining the confirmation prompt exits the process with status 0
and performs zero work-log POSTs. -/
theorem decline_confirmation (items : List FinalItem) (resp : List (String × Bool))
    (postOk : Nat → Bool)
    (h1 : issuesCount items = 0)
    (h2 : issueErrors (uniqueJiraIds items) (buildIssues resp) = 0) :
    pipeline items resp false postOk = (0, []) := by
  rw [pipeline]
  by_cases hlen : items.length = 0
  · rw [if_pos hlen]
  · rw [if_neg hlen, if_neg (by omega), if_neg (by omega), if_neg (by simp)]

/-- Witness for C10: a clean single-item run where the user answers no. -/
theorem decline_confirmation_witness :
    pipeline [readyItem] [("AB-1", true)] false (fun _ => true) = (0, []) :=
  decline_confirmation [readyItem] [("AB-1", true)] (fun _ => true)
    (by decide) (by decide)

end Joggl
